import Mathlib

/-!
Shallow embedding of the TV-show parsing core of the repository
(`src/chapter6/main.ts`, Option variant, and the Either variant file),
together with the duration sorter, and proofs of the spec's claims.

Strings are modelled as Lean `String` (a wrapper around `List Char`);
JavaScript's `String.prototype.indexOf`, `slice`, `trim` and the `Number`
conversion are modelled below.  JavaScript numbers reaching the parser are
either integers or `NaN`, so the numeric value domain is modelled by the
inductive type `JsNum` with an explicit `nan` constructor; `jsNumber`
covers the integral fragment of the `Number` coercion (optional sign and
decimal digits, empty/whitespace strings giving `0`) and sends every other
string to `nan` (non-integral numeric literals never occur in the
properties verified here).
-/

/-- First index of character `c` in a character list (JS `indexOf` core). -/
def firstIdx (c : Char) : List Char → Option Nat
  | [] => none
  | x :: xs => if x = c then some 0 else (firstIdx c xs).map (· + 1)

/-- JS `rawShow.indexOf(c)`: first index of `c`, or `-1` when absent. -/
def jsIndexOf (s : String) (c : Char) : Int :=
  match firstIdx c s.data with
  | some n => (n : Int)
  | none => -1

/-- JS `s.slice(a, b)` with index normalisation (negative indices count from
the end, indices are clamped to the string length). -/
def jsSlice (s : String) (a b : Int) : String :=
  let len : Int := (s.data.length : Int)
  let norm : Int → Nat := fun x => if x < 0 then (x + len).toNat else min x.toNat s.data.length
  String.mk ((s.data.take (norm b)).drop (norm a))

/-- Whitespace as removed by JS `trim` (ASCII fragment). -/
def jsWs (c : Char) : Bool := c.isWhitespace

/-- Trim whitespace from both ends of a character list. -/
def jsTrimList (cs : List Char) : List Char :=
  ((cs.dropWhile jsWs).reverse.dropWhile jsWs).reverse

/-- JS `s.trim()`. -/
def jsTrim (s : String) : String := String.mk (jsTrimList s.data)

/-- Numeric value of a digit list (most significant first). -/
def natOfDigits (cs : List Char) : Nat :=
  cs.foldl (fun acc c => acc * 10 + (c.toNat - '0'.toNat)) 0

/-- Parse a non-empty all-digit list, `none` otherwise. -/
def digitsToNat (cs : List Char) : Option Nat :=
  if cs.isEmpty then none
  else if cs.all Char.isDigit then some (natOfDigits cs) else none

/-- A JavaScript number as it occurs in this program: an integer or `NaN`. -/
inductive JsNum where
  | nan : JsNum
  | int (n : Int) : JsNum
deriving DecidableEq

/-- JS `Number(s)` on its integral fragment: whitespace-trimmed empty string
gives `0`, an optional sign followed by digits gives the integer, anything
else gives `NaN` (the non-integral numeric literals JS would accept never
arise in the verified properties). -/
def jsNumber (s : String) : JsNum :=
  match jsTrimList s.data with
  | [] => .int 0
  | '+' :: rest =>
      match digitsToNat rest with
      | some n => .int n
      | none => .nan
  | '-' :: rest =>
      match digitsToNat rest with
      | some n => .int (-(n : Int))
      | none => .nan
  | cs =>
      match digitsToNat cs with
      | some n => .int n
      | none => .nan

/-- JS subtraction on the modelled numbers: `NaN` propagates. -/
def jsSub : JsNum → JsNum → JsNum
  | .int a, .int b => .int (a - b)
  | _, _ => .nan

/-- JS `<` on the modelled numbers: any comparison with `NaN` is false. -/
def jsLt : JsNum → JsNum → Bool
  | .int a, .int b => decide (a < b)
  | _, _ => false

/-- fp-ts `N.Ord.compare`: `first < second ? -1 : first > second ? 1 : 0`. -/
def numOrdCompare (first second : JsNum) : Ordering :=
  if jsLt first second then .lt else if jsLt second first then .gt else .eq

/-- Modelled from the spec: the `TvShow` record type imported from
`./types` (a file that is not part of the sources); the spec's data model
gives `{ title: string, start: integer, end: integer }`.  The year fields
use `JsNum` because the JS `number` type also carries the `NaN` that
`Number` can produce inside the parser. -/
structure TvShow where
  title : String
  start : JsNum
  «end» : JsNum
deriving DecidableEq

/-- fp-ts `O.orElse`: keep a `some`, otherwise run the fallback thunk. -/
def jsOrElseO {α : Type} (fa : Option α) (that : Unit → Option α) : Option α :=
  match fa with
  | some a => some a
  | none => that ()

/-- fp-ts `E.orElse`: keep a `right`, otherwise run the fallback on the
left value. -/
def jsOrElseE {α : Type} (fa : Except String α) (that : String → Except String α) :
    Except String α :=
  match fa with
  | .ok a => .ok a
  | .error e => that e

/-! The Option (silent) variant, from `src/chapter6/main.ts`. -/

/-- `extractTitle` (Option variant): succeeds when `(` occurs at a positive
index, returning `rawShow.slice(0, bracketOpen - 1).trim()`. -/
def extractTitleO (rawShow : String) : Option String :=
  let bracketOpen := jsIndexOf rawShow '('
  if bracketOpen > 0 then some (jsTrim (jsSlice rawShow 0 (bracketOpen - 1)))
  else none

/-- `extractYearStart` (Option variant): requires both `(` and `-` to be
present, then converts `rawShow.slice(bracketOpen + 1, dash)` with
`Number`, always wrapping the result in `some`. -/
def extractYearStartO (rawShow : String) : Option JsNum :=
  let bracketOpen := jsIndexOf rawShow '('
  let dash := jsIndexOf rawShow '-'
  if bracketOpen ≠ -1 ∧ dash ≠ -1 then
    some (jsNumber (jsSlice rawShow (bracketOpen + 1) dash))
  else none

/-- `extractYearEnd` (Option variant): requires both `-` and `)` to be
present, then converts `rawShow.slice(dash + 1, bracketClose)`. -/
def extractYearEndO (rawShow : String) : Option JsNum :=
  let bracketClose := jsIndexOf rawShow ')'
  let dash := jsIndexOf rawShow '-'
  if dash ≠ -1 ∧ bracketClose ≠ -1 then
    some (jsNumber (jsSlice rawShow (dash + 1) bracketClose))
  else none

/-- `extractSingleYear` (Option variant): no `-` anywhere, `(` present and
`)` at least two places after it, then converts the slice between the
brackets. -/
def extractSingleYearO (rawShow : String) : Option JsNum :=
  let dash := jsIndexOf rawShow '-'
  let bracketOpen := jsIndexOf rawShow '('
  let bracketClose := jsIndexOf rawShow ')'
  if dash = -1 ∧ bracketOpen ≠ -1 ∧ bracketClose > bracketOpen + 1 then
    some (jsNumber (jsSlice rawShow (bracketOpen + 1) bracketClose))
  else none

/-- `parseShow` (Option variant): bind title, start (with single-year
fallback), end (with single-year fallback). -/
def parseShowO (rawShow : String) : Option TvShow :=
  (extractTitleO rawShow).bind fun title =>
    (jsOrElseO (extractYearStartO rawShow) (fun _ => extractSingleYearO rawShow)).bind
      fun start =>
        (jsOrElseO (extractYearEndO rawShow) (fun _ => extractSingleYearO rawShow)).bind
          fun stop => some { title := title, start := start, «end» := stop }

/-- `addOrResign` (Option variant): append when both accumulator and new
item succeeded, otherwise fail. -/
def addOrResignO (parsedShows : Option (List TvShow)) (newParsedShow : Option TvShow) :
    Option (List TvShow) :=
  parsedShows.bind fun shows =>
    newParsedShow.bind fun parsedShow => some (shows.concat parsedShow)

/-- `parseShows` (Option variant): map `parseShow`, then left-fold
`addOrResign` from `some []`. -/
def parseShowsO (rawShows : List String) : Option (List TvShow) :=
  (rawShows.map parseShowO).foldl addOrResignO (some [])

/-! The Either (diagnostic) variant. -/

/-- `extractTitle` (Either variant). -/
def extractTitleE (rawShow : String) : Except String String :=
  let bracketOpen := jsIndexOf rawShow '('
  if bracketOpen > 0 then .ok (jsTrim (jsSlice rawShow 0 (bracketOpen - 1)))
  else .error ("Cannot extract title from: " ++ rawShow)

/-- `extractYearStart` (Either variant): additionally requires the `-` to be
at least two places after the `(` (non-empty slice). -/
def extractYearStartE (rawShow : String) : Except String JsNum :=
  let bracketOpen := jsIndexOf rawShow '('
  let dash := jsIndexOf rawShow '-'
  if bracketOpen ≠ -1 ∧ dash > bracketOpen + 1 then
    .ok (jsNumber (jsSlice rawShow (bracketOpen + 1) dash))
  else .error ("Cannot extract year start from: " ++ rawShow)

/-- `extractYearEnd` (Either variant): requires the `)` to be at least two
places after the `-`. -/
def extractYearEndE (rawShow : String) : Except String JsNum :=
  let dash := jsIndexOf rawShow '-'
  let bracketClose := jsIndexOf rawShow ')'
  if dash ≠ -1 ∧ bracketClose > dash + 1 then
    .ok (jsNumber (jsSlice rawShow (dash + 1) bracketClose))
  else .error ("Cannot extract year end from: " ++ rawShow)

/-- `extractSingleYear` (Either variant). -/
def extractSingleYearE (rawShow : String) : Except String JsNum :=
  let dash := jsIndexOf rawShow '-'
  let bracketOpen := jsIndexOf rawShow '('
  let bracketClose := jsIndexOf rawShow ')'
  if dash = -1 ∧ bracketOpen ≠ -1 ∧ bracketClose > bracketOpen + 1 then
    .ok (jsNumber (jsSlice rawShow (bracketOpen + 1) bracketClose))
  else .error ("Cannot extract single year from: " ++ rawShow)

/-- `parseShow` (Either variant). -/
def parseShowE (rawShow : String) : Except String TvShow :=
  (extractTitleE rawShow).bind fun title =>
    (jsOrElseE (extractYearStartE rawShow) (fun _ => extractSingleYearE rawShow)).bind
      fun start =>
        (jsOrElseE (extractYearEndE rawShow) (fun _ => extractSingleYearE rawShow)).bind
          fun stop => .ok { title := title, start := start, «end» := stop }

/-- `addOrResign` (Either variant): the accumulator is bound first, so an
already-failed accumulator keeps its diagnostic. -/
def addOrResignE (parsedShows : Except String (List TvShow))
    (newParsedShow : Except String TvShow) : Except String (List TvShow) :=
  parsedShows.bind fun shows =>
    newParsedShow.bind fun parsedShow => .ok (shows.concat parsedShow)

/-- `parseShows` (Either variant). -/
def parseShowsE (rawShows : List String) : Except String (List TvShow) :=
  (rawShows.map parseShowE).foldl addOrResignE (.ok [])

/-! The duration sorter, from `src/chapter6/main.ts`. -/

/-- `byPeriod`: `N.Ord` contramapped along `tvShow.end - tvShow.start`. -/
def byPeriod (x y : TvShow) : Ordering :=
  numOrdCompare (jsSub x.«end» x.start) (jsSub y.«end» y.start)

/-- One step of the stable sort: insert a show in front of the first
element the comparator does not order it strictly after.  Equal-key
elements already in the list stay in front, which is exactly the stability
guarantee of `Array.prototype.sort`. -/
def sortInsert (a : TvShow) : List TvShow → List TvShow
  | [] => [a]
  | b :: bs => if byPeriod a b ≠ .gt then a :: b :: bs else b :: sortInsert a bs

/-- fp-ts `A.sortBy([byPeriod])`: the stable comparator sort of the input,
modelled as a stable insertion sort (on a consistent comparator every
stable sort produces this same list). -/
def sortByPeriod (shows : List TvShow) : List TvShow :=
  shows.foldr sortInsert []

/-- `sortShows`: stable ascending sort by duration, then reverse. -/
def sortShows (shows : List TvShow) : List TvShow :=
  (sortByPeriod shows).reverse

/-! Sample data from the sources. -/

/-- The raw dummy strings (identical in both variant files). -/
def rawShows : List String :=
  ["The Office (2005-2013)", "Breaking Bad (2008-2013)", "Friends (1994-2004)",
    "The Simpsons, 1989-2021", "Game of Thrones (2011)"]

/-- The structured dummy records from `src/chapter6/main.ts`. -/
def shows : List TvShow :=
  [{ title := "The Office", start := .int 2005, «end» := .int 2013 },
    { title := "Breaking Bad", start := .int 2008, «end» := .int 2013 },
    { title := "Friends", start := .int 1994, «end» := .int 2004 },
    { title := "The Simpsons", start := .int 1989, «end» := .int 2021 }]

/-! Helper notions for the sorting claims. -/

open List

/-- Whether a modelled JS number is an actual integer (not `NaN`). -/
def JsNum.isInt : JsNum → Bool
  | .int _ => true
  | .nan => false

/-- The integer carried by a modelled JS number (`0` for `NaN`; only used
under an integrality hypothesis). -/
def intOf : JsNum → Int
  | .int n => n
  | .nan => 0

/-- A record whose two year fields are actual integers, as the spec's data
model prescribes. -/
def intShow (s : TvShow) : Bool := s.start.isInt && s.«end».isInt

/-- The derived sort key of the spec: `end - start`. -/
def dur (s : TvShow) : Int := intOf s.«end» - intOf s.start

lemma byPeriod_ne_gt_iff {a b : TvShow} (ha : intShow a = true) (hb : intShow b = true) :
    (byPeriod a b ≠ .gt) ↔ dur a ≤ dur b := by
  obtain ⟨ta, sa, ea⟩ := a
  obtain ⟨tb, sb, eb⟩ := b
  cases sa <;> cases ea <;> simp [intShow, JsNum.isInt] at ha
  cases sb <;> cases eb <;> simp [intShow, JsNum.isInt] at hb
  simp only [byPeriod, jsSub, numOrdCompare, jsLt, dur, intOf]
  split_ifs with h1 h2 <;> simp_all <;> omega

lemma sortInsert_perm (a : TvShow) : ∀ l : List TvShow, sortInsert a l ~ a :: l := by
  intro l
  induction l with
  | nil => exact List.Perm.refl _
  | cons b bs ih =>
      simp only [sortInsert]
      split
      · exact List.Perm.refl _
      · exact (List.Perm.cons b ih).trans (List.Perm.swap a b bs)

lemma sortByPeriod_cons (c : TvShow) (l : List TvShow) :
    sortByPeriod (c :: l) = sortInsert c (sortByPeriod l) := rfl

lemma sortByPeriod_perm : ∀ l : List TvShow, sortByPeriod l ~ l := by
  intro l
  induction l with
  | nil => exact List.Perm.refl _
  | cons c cs ih =>
      rw [sortByPeriod_cons]
      exact (sortInsert_perm c _).trans (List.Perm.cons c ih)

lemma mem_sortInsert {x a : TvShow} {l : List TvShow} :
    x ∈ sortInsert a l ↔ x = a ∨ x ∈ l := by
  rw [(sortInsert_perm a l).mem_iff, List.mem_cons]

lemma sortInsert_sorted {a : TvShow} {l : List TvShow}
    (ha : intShow a = true) (hl : ∀ x ∈ l, intShow x = true)
    (h : l.Pairwise (fun x y => dur x ≤ dur y)) :
    (sortInsert a l).Pairwise (fun x y => dur x ≤ dur y) := by
  induction l with
  | nil => simp [sortInsert]
  | cons b bs ih =>
      have hb : intShow b = true := hl b (by simp)
      have hbs : ∀ x ∈ bs, intShow x = true := fun x hx => hl x (by simp [hx])
      rw [List.pairwise_cons] at h
      simp only [sortInsert]
      split
      · rename_i hcond
        have hab : dur a ≤ dur b := (byPeriod_ne_gt_iff ha hb).mp hcond
        rw [List.pairwise_cons]
        refine ⟨?_, List.pairwise_cons.mpr h⟩
        intro y hy
        rcases List.mem_cons.mp hy with rfl | hy
        · exact hab
        · exact le_trans hab (h.1 y hy)
      · rename_i hcond
        have hba : dur b ≤ dur a := by
          by_contra hcon
          push_neg at hcon
          exact hcond (by rw [byPeriod_ne_gt_iff ha hb]; omega)
        rw [List.pairwise_cons]
        refine ⟨?_, ih hbs h.2⟩
        intro y hy
        rcases mem_sortInsert.mp hy with rfl | hy
        · exact hba
        · exact h.1 y hy

lemma sortByPeriod_sorted {l : List TvShow} (hl : ∀ x ∈ l, intShow x = true) :
    (sortByPeriod l).Pairwise (fun x y => dur x ≤ dur y) := by
  induction l with
  | nil => simp [sortByPeriod]
  | cons c cs ih =>
      rw [sortByPeriod_cons]
      have hc : intShow c = true := hl c (by simp)
      have hcs : ∀ x ∈ cs, intShow x = true := fun x hx => hl x (by simp [hx])
      have hmem : ∀ x ∈ sortByPeriod cs, intShow x = true := fun x hx =>
        hcs x ((sortByPeriod_perm cs).mem_iff.mp hx)
      exact sortInsert_sorted hc hmem (ih hcs)

lemma sublist_sortInsert_self (a : TvShow) : ∀ l : List TvShow, l <+ sortInsert a l := by
  intro l
  induction l with
  | nil => exact List.nil_sublist _
  | cons b bs ih =>
      simp only [sortInsert]
      split
      · exact List.Sublist.cons a (List.Sublist.refl _)
      · exact List.Sublist.cons₂ b ih

lemma sortInsert_pair_sublist {a b : TvShow} {l : List TvShow}
    (hb : b ∈ l) (hab : byPeriod a b ≠ .gt) : [a, b] <+ sortInsert a l := by
  induction l with
  | nil => cases hb
  | cons x xs ih =>
      simp only [sortInsert]
      split
      · exact List.Sublist.cons₂ a (List.singleton_sublist.mpr hb)
      · rename_i hcond
        rcases List.mem_cons.mp hb with rfl | hb
        · exact absurd hab hcond
        · exact List.Sublist.cons x (ih hb)

lemma sortByPeriod_pair_sublist {a b : TvShow} {l : List TvShow}
    (h : [a, b] <+ l) (hab : byPeriod a b ≠ .gt) : [a, b] <+ sortByPeriod l := by
  induction l with
  | nil => simp at h
  | cons c cs ih =>
      rw [sortByPeriod_cons]
      cases h with
      | cons _ h' => exact (ih h').trans (sublist_sortInsert_self c _)
      | cons₂ _ h' =>
          have hb : b ∈ sortByPeriod cs :=
            (sortByPeriod_perm cs).mem_iff.mpr (List.singleton_sublist.mp h')
          exact sortInsert_pair_sublist hb hab

/-! Helper lemmas for the `orElse` and aggregation claims. -/

lemma addOrResignE_error (d : String) (x : Except String TvShow) :
    addOrResignE (.error d) x = .error d := rfl

lemma addOrResignO_none (x : Option TvShow) : addOrResignO none x = none := rfl

/-! Claim theorems about the sorter and the fallback combinator. -/

/-- C10: the output of `sortShows` is a permutation of its input — same
length, same records with the same multiplicities; nothing is dropped,
duplicated or altered. -/
theorem sortShows_permutation (l : List TvShow) : sortShows l ~ l :=
  ((sortByPeriod l).reverse_perm).trans (sortByPeriod_perm l)

/-- C7: on records with integer year fields (the spec's data model),
`sortShows` orders any input by the derived key `end - start` in weakly
descending order, and on the four dummy records (durations 8, 5, 10, 32)
it returns durations 32, 10, 8, 5: Simpsons, Friends, Office,
Breaking Bad. -/
theorem sortShows_durationDescending :
    (∀ l : List TvShow, (∀ x ∈ l, intShow x = true) →
      (sortShows l).Pairwise (fun x y => dur y ≤ dur x)) ∧
    sortShows shows =
      [{ title := "The Simpsons", start := .int 1989, «end» := .int 2021 },
        { title := "Friends", start := .int 1994, «end» := .int 2004 },
        { title := "The Office", start := .int 2005, «end» := .int 2013 },
        { title := "Breaking Bad", start := .int 2008, «end» := .int 2013 }] := by
  constructor
  · intro l hl
    have := sortByPeriod_sorted hl
    rw [sortShows, List.pairwise_reverse]
    exact this
  · rfl

/-- Witness for C7 at the dummy records of the source. -/
theorem sortShows_durationDescending_witness :
    (sortShows shows).Pairwise (fun x y => dur y ≤ dur x) :=
  sortShows_durationDescending.1 shows (by decide)

/-- C8 counterexample: two distinct records with equal duration do NOT
preserve their relative input order under `sortShows`; the stable
ascending sort keeps them in input order and the final reversal flips
them. -/
theorem sortShows_stability_counterexample :
    sortShows [{ title := "A", start := .int 0, «end» := .int 5 },
        { title := "B", start := .int 0, «end» := .int 5 }] =
      [{ title := "B", start := .int 0, «end» := .int 5 },
        { title := "A", start := .int 0, «end» := .int 5 }] ∧
    ({ title := "A", start := .int 0, «end» := .int 5 } : TvShow) ≠
      { title := "B", start := .int 0, «end» := .int 5 } := by
  exact ⟨rfl, by decide⟩

/-- C8 amended: two records with integer year fields and equal duration
appear in sortShows' output in REVERSED relative input order (the
ascending phase is stable, the final reversal flips equal-key pairs). -/
theorem sortShows_equalDuration_reversed (l : List TvShow) (a b : TvShow)
    (ha : intShow a = true) (hb : intShow b = true) (hd : dur a = dur b)
    (hpair : [a, b] <+ l) : [b, a] <+ sortShows l := by
  have hab : byPeriod a b ≠ .gt := (byPeriod_ne_gt_iff ha hb).mpr (le_of_eq hd)
  have h1 : [a, b] <+ sortByPeriod l := sortByPeriod_pair_sublist hpair hab
  have h2 := h1.reverse
  simpa [sortShows] using h2

/-- Witness for C8 (amended) at two concrete equal-duration records. -/
theorem sortShows_equalDuration_reversed_witness :
    [({ title := "B", start := .int 0, «end» := .int 5 } : TvShow),
      { title := "A", start := .int 0, «end» := .int 5 }] <+
      sortShows [{ title := "A", start := .int 0, «end» := .int 5 },
        { title := "B", start := .int 0, «end» := .int 5 }] :=
  sortShows_equalDuration_reversed _ _ _ (by decide) (by decide) (by decide)
    (List.Sublist.refl _)

/-- C9: `orElse` keeps a successful primary unchanged (independently of the
secondary, the pure rendering of "the secondary is never evaluated"), and
when the primary has failed it returns exactly what the secondary
computation produces, so when both fail the secondary's diagnostic is
preserved verbatim. -/
theorem orElse_firstSuccessWins :
    (∀ (α : Type) (x : α) (f : Unit → Option α), jsOrElseO (some x) f = some x) ∧
    (∀ (α : Type) (x : α) (f g : Unit → Option α),
      jsOrElseO (some x) f = jsOrElseO (some x) g) ∧
    (∀ (α : Type) (f : Unit → Option α), jsOrElseO none f = f ()) ∧
    (∀ (α : Type) (x : α) (f : String → Except String α), jsOrElseE (.ok x) f = .ok x) ∧
    (∀ (α : Type) (x : α) (f g : String → Except String α),
      jsOrElseE (.ok x) f = jsOrElseE (.ok x) g) ∧
    (∀ (α : Type) (d d' : String) (f : String → Except String α),
      f d = .error d' → jsOrElseE (.error d) f = .error d') :=
  ⟨fun _ _ _ => rfl, fun _ _ _ _ => rfl, fun _ _ => rfl, fun _ _ _ => rfl,
    fun _ _ _ _ => rfl, fun _ _ _ _ h => h⟩

/-- Witness for C9: both computations fail, the secondary's diagnostic
wins. -/
theorem orElse_firstSuccessWins_witness :
    jsOrElseE (.error "first failure") (fun _ => (.error "second failure" : Except String Nat)) =
      .error "second failure" :=
  orElse_firstSuccessWins.2.2.2.2.2 Nat "first failure" "second failure" _ rfl

/-! Characterisations of `firstIdx` and `jsIndexOf`. -/

lemma firstIdx_eq_none_iff {c : Char} : ∀ {cs : List Char}, firstIdx c cs = none ↔ c ∉ cs := by
  intro cs
  induction cs with
  | nil => simp [firstIdx]
  | cons x xs ih =>
      by_cases hx : x = c
      · subst hx
        simp [firstIdx]
      · simp [firstIdx, hx, ih, Ne.symm hx]

lemma mem_of_firstIdx_eq_some {c : Char} {cs : List Char} {n : Nat}
    (h : firstIdx c cs = some n) : c ∈ cs := by
  by_contra hm
  rw [firstIdx_eq_none_iff.mpr hm] at h
  cases h

lemma firstIdx_eq_some_iff {c : Char} :
    ∀ {cs : List Char} {n : Nat},
      firstIdx c cs = some n ↔ ∃ pre post, cs = pre ++ c :: post ∧ pre.length = n ∧ c ∉ pre := by
  intro cs
  induction cs with
  | nil =>
      intro n
      constructor
      · intro h; cases h
      · rintro ⟨pre, post, h, -, -⟩
        exact absurd h (by simp)
  | cons x xs ih =>
      intro n
      by_cases hx : x = c
      · subst hx
        simp only [firstIdx, if_pos rfl]
        constructor
        · intro h
          obtain rfl : n = 0 := by cases h; rfl
          exact ⟨[], xs, rfl, rfl, by simp⟩
        · rintro ⟨pre, post, heq, hlen, hpre⟩
          cases pre with
          | nil =>
              obtain rfl : n = 0 := by simpa using hlen.symm
              rfl
          | cons p ps =>
              rw [List.cons_append] at heq
              obtain rfl : x = p := (List.cons_eq_cons.mp heq).1
              exact absurd (by simp : x ∈ x :: ps) (fun h => hpre h)
      · simp only [firstIdx, if_neg hx]
        constructor
        · intro h
          obtain ⟨m, hm, hn⟩ := Option.map_eq_some'.mp h
          obtain ⟨pre, post, heq, hlen, hpre⟩ := ih.mp hm
          refine ⟨x :: pre, post, by simp [heq], by simp [hlen, hn], ?_⟩
          simp only [List.mem_cons, not_or]
          exact ⟨Ne.symm hx, hpre⟩
        · rintro ⟨pre, post, heq, hlen, hpre⟩
          cases pre with
          | nil =>
              exact absurd (List.cons_eq_cons.mp heq).1 hx
          | cons p ps =>
              rw [List.cons_append] at heq
              obtain ⟨-, heq2⟩ := List.cons_eq_cons.mp heq
              have hps : firstIdx c xs = some ps.length :=
                ih.mpr ⟨ps, post, heq2, rfl, fun h => hpre (by simp [h])⟩
              simp [hps, ← hlen]

lemma jsIndexOf_eq_of_firstIdx {s : String} {c : Char} {n : Nat}
    (h : firstIdx c s.data = some n) : jsIndexOf s c = n := by
  unfold jsIndexOf
  rw [h]

lemma jsIndexOf_eq_neg_one_iff {s : String} {c : Char} :
    jsIndexOf s c = -1 ↔ c ∉ s.data := by
  cases h : firstIdx c s.data with
  | none =>
      have hi : jsIndexOf s c = -1 := by unfold jsIndexOf; rw [h]
      simp [hi, firstIdx_eq_none_iff.mp h]
  | some n =>
      rw [jsIndexOf_eq_of_firstIdx h]
      constructor
      · intro hn; exact absurd hn (by omega)
      · intro hm; exact absurd (mem_of_firstIdx_eq_some h) hm

lemma jsIndexOf_ne_neg_one_iff {s : String} {c : Char} :
    jsIndexOf s c ≠ -1 ↔ c ∈ s.data := by
  rw [Ne, jsIndexOf_eq_neg_one_iff]
  exact not_not

/-- C4 counterexample: in the silent (Option) variant the extractors do NOT
fail on misordered delimiters.  In `"a-(b"` the first `-` is before the
first `(`, yet the start-year extractor succeeds (on the empty slice,
which `Number` turns into `0`); in `"a)-b"` the first `)` is before the
first `-`, yet the end-year extractor succeeds. -/
theorem yearExtractors_misorder_counterexample :
    extractYearStartO "a-(b" = some (.int 0) ∧ extractYearEndO "a)-b" = some (.int 0) :=
  ⟨rfl, rfl⟩

lemma extractYearStartO_success_iff (s : String) :
    (∃ v, extractYearStartO s = some v) ↔ ('(' ∈ s.data ∧ '-' ∈ s.data) := by
  constructor
  · rintro ⟨v, hv⟩
    by_cases h : jsIndexOf s '(' ≠ -1 ∧ jsIndexOf s '-' ≠ -1
    · exact ⟨jsIndexOf_ne_neg_one_iff.mp h.1, jsIndexOf_ne_neg_one_iff.mp h.2⟩
    · simp only [extractYearStartO, if_neg h] at hv
      cases hv
  · rintro ⟨h1, h2⟩
    have hcond : jsIndexOf s '(' ≠ -1 ∧ jsIndexOf s '-' ≠ -1 :=
      ⟨jsIndexOf_ne_neg_one_iff.mpr h1, jsIndexOf_ne_neg_one_iff.mpr h2⟩
    refine ⟨jsNumber (jsSlice s (jsIndexOf s '(' + 1) (jsIndexOf s '-')), ?_⟩
    simp only [extractYearStartO]
    rw [if_pos hcond]

lemma extractYearEndO_success_iff (s : String) :
    (∃ v, extractYearEndO s = some v) ↔ ('-' ∈ s.data ∧ ')' ∈ s.data) := by
  constructor
  · rintro ⟨v, hv⟩
    by_cases h : jsIndexOf s '-' ≠ -1 ∧ jsIndexOf s ')' ≠ -1
    · exact ⟨jsIndexOf_ne_neg_one_iff.mp h.1, jsIndexOf_ne_neg_one_iff.mp h.2⟩
    · simp only [extractYearEndO, if_neg h] at hv
      cases hv
  · rintro ⟨h1, h2⟩
    have hcond : jsIndexOf s '-' ≠ -1 ∧ jsIndexOf s ')' ≠ -1 :=
      ⟨jsIndexOf_ne_neg_one_iff.mpr h1, jsIndexOf_ne_neg_one_iff.mpr h2⟩
    refine ⟨jsNumber (jsSlice s (jsIndexOf s '-' + 1) (jsIndexOf s ')')), ?_⟩
    simp only [extractYearEndO]
    rw [if_pos hcond]

lemma extractYearStartE_success_iff (s : String) :
    (∃ v, extractYearStartE s = .ok v) ↔
      (∃ i j, firstIdx '(' s.data = some i ∧ firstIdx '-' s.data = some j ∧ i + 1 < j) := by
  cases ho : firstIdx '(' s.data with
  | none =>
      have hio : jsIndexOf s '(' = -1 := by unfold jsIndexOf; rw [ho]
      have hcond : ¬ (jsIndexOf s '(' ≠ -1 ∧ jsIndexOf s '-' > jsIndexOf s '(' + 1) := by
        rw [hio]; rintro ⟨hc, -⟩; exact hc rfl
      simp [extractYearStartE, if_neg hcond, ho]
  | some i =>
      have hio : jsIndexOf s '(' = i := jsIndexOf_eq_of_firstIdx ho
      cases hd : firstIdx '-' s.data with
      | none =>
          have hid : jsIndexOf s '-' = -1 := by unfold jsIndexOf; rw [hd]
          have hcond : ¬ (jsIndexOf s '(' ≠ -1 ∧ jsIndexOf s '-' > jsIndexOf s '(' + 1) := by
            rw [hio, hid]; rintro ⟨-, hc⟩; omega
          simp [extractYearStartE, if_neg hcond, ho, hd]
      | some j =>
          have hid : jsIndexOf s '-' = j := jsIndexOf_eq_of_firstIdx hd
          by_cases hij : i + 1 < j
          · have hcond : jsIndexOf s '(' ≠ -1 ∧ jsIndexOf s '-' > jsIndexOf s '(' + 1 := by
              rw [hio, hid]
              constructor
              · omega
              · omega
            simp only [extractYearStartE, if_pos hcond]
            constructor
            · intro; exact ⟨i, j, rfl, rfl, hij⟩
            · intro; exact ⟨_, rfl⟩
          · have hcond : ¬ (jsIndexOf s '(' ≠ -1 ∧ jsIndexOf s '-' > jsIndexOf s '(' + 1) := by
              rw [hio, hid]; rintro ⟨-, hc⟩; omega
            simp only [extractYearStartE, if_neg hcond]
            constructor
            · rintro ⟨v, hv⟩; cases hv
            · rintro ⟨i', j', hi', hj', hij'⟩
              injection hi' with hii
              injection hj' with hjj
              exact absurd hij' (by omega)

lemma extractYearEndE_success_iff (s : String) :
    (∃ v, extractYearEndE s = .ok v) ↔
      (∃ i j, firstIdx '-' s.data = some i ∧ firstIdx ')' s.data = some j ∧ i + 1 < j) := by
  cases hdash : firstIdx '-' s.data with
  | none =>
      have hid : jsIndexOf s '-' = -1 := by unfold jsIndexOf; rw [hdash]
      have hcond : ¬ (jsIndexOf s '-' ≠ -1 ∧ jsIndexOf s ')' > jsIndexOf s '-' + 1) := by
        rw [hid]; rintro ⟨hc, -⟩; exact hc rfl
      simp [extractYearEndE, if_neg hcond, hdash]
  | some i =>
      have hid : jsIndexOf s '-' = i := jsIndexOf_eq_of_firstIdx hdash
      cases hc : firstIdx ')' s.data with
      | none =>
          have hic : jsIndexOf s ')' = -1 := by unfold jsIndexOf; rw [hc]
          have hcond : ¬ (jsIndexOf s '-' ≠ -1 ∧ jsIndexOf s ')' > jsIndexOf s '-' + 1) := by
            rw [hid, hic]; rintro ⟨-, hx⟩; omega
          simp [extractYearEndE, if_neg hcond, hdash, hc]
      | some j =>
          have hic : jsIndexOf s ')' = j := jsIndexOf_eq_of_firstIdx hc
          by_cases hij : i + 1 < j
          · have hcond : jsIndexOf s '-' ≠ -1 ∧ jsIndexOf s ')' > jsIndexOf s '-' + 1 := by
              rw [hid, hic]
              constructor
              · omega
              · omega
            simp only [extractYearEndE, if_pos hcond]
            constructor
            · intro; exact ⟨i, j, rfl, rfl, hij⟩
            · intro; exact ⟨_, rfl⟩
          · have hcond : ¬ (jsIndexOf s '-' ≠ -1 ∧ jsIndexOf s ')' > jsIndexOf s '-' + 1) := by
              rw [hid, hic]; rintro ⟨-, hx⟩; omega
            simp only [extractYearEndE, if_neg hcond]
            constructor
            · rintro ⟨v, hv⟩; cases hv
            · rintro ⟨i', j', hi', hj', hij'⟩
              injection hi' with hii
              injection hj' with hjj
              exact absurd hij' (by omega)

/-- C4 amended: the diagnostic (Either) start-year extractor succeeds
exactly when `(` is present and the first `-` is more than one place after
it (so the slice is non-empty), and symmetrically for the end-year
extractor; the silent (Option) extractors succeed exactly when both of
their delimiters are present, with no ordering (or emptiness) check at
all. -/
theorem yearExtractors_delimiterConditions :
    (∀ s : String, (∃ v, extractYearStartO s = some v) ↔ ('(' ∈ s.data ∧ '-' ∈ s.data)) ∧
    (∀ s : String, (∃ v, extractYearEndO s = some v) ↔ ('-' ∈ s.data ∧ ')' ∈ s.data)) ∧
    (∀ s : String, (∃ v, extractYearStartE s = .ok v) ↔
      (∃ i j, firstIdx '(' s.data = some i ∧ firstIdx '-' s.data = some j ∧ i + 1 < j)) ∧
    (∀ s : String, (∃ v, extractYearEndE s = .ok v) ↔
      (∃ i j, firstIdx '-' s.data = some i ∧ firstIdx ')' s.data = some j ∧ i + 1 < j)) :=
  ⟨extractYearStartO_success_iff, extractYearEndO_success_iff,
    extractYearStartE_success_iff, extractYearEndE_success_iff⟩

/-- Witness for C4: the silent start-year extractor succeeds on a string
with both delimiters present. -/
theorem yearExtractors_delimiterConditions_witness :
    ∃ v, extractYearStartO "a(-b" = some v :=
  (yearExtractors_delimiterConditions.1 "a(-b").mpr (by decide)

/-- C5 counterexample: on `"x (zz-9)"` the delimiter conditions hold but
the slice `"zz"` is not numeric, and the extractors return a SUCCESS
carrying `NaN` — not a Failure on the Outcome channel as the claim
requires. -/
theorem yearExtractor_nonNumeric_counterexample :
    extractYearStartO "x (zz-9)" = some JsNum.nan ∧
    extractYearStartE "x (zz-9)" = .ok JsNum.nan :=
  ⟨rfl, rfl⟩

/-- C5 amended: once the delimiter conditions hold, the year extractors
never fail: the `Number` conversion is unconditionally wrapped in a
success, so a non-numeric slice surfaces as `Success(NaN)` (still through
the Outcome channel, never an uncaught fault) rather than as a Failure. -/
theorem yearExtractor_nonNumericSlice :
    (∀ s : String, '(' ∈ s.data → '-' ∈ s.data → ∃ v, extractYearStartO s = some v) ∧
    (∀ (s : String) (i j : Nat), firstIdx '(' s.data = some i → firstIdx '-' s.data = some j →
      i + 1 < j → ∃ v, extractYearStartE s = .ok v) ∧
    extractYearStartO "T (abcd-2000)" = some JsNum.nan ∧
    extractYearStartE "T (abcd-2000)" = .ok JsNum.nan := by
  refine ⟨?_, ?_, rfl, rfl⟩
  · intro s h1 h2
    exact (extractYearStartO_success_iff s).mpr ⟨h1, h2⟩
  · intro s i j hi hj hij
    exact (extractYearStartE_success_iff s).mpr ⟨i, j, hi, hj, hij⟩

/-- Witness for C5 at a concrete string with non-numeric slice. -/
theorem yearExtractor_nonNumericSlice_witness :
    ∃ v, extractYearStartE "x (?!-2000)" = .ok v :=
  yearExtractor_nonNumericSlice.2.1 "x (?!-2000)" 2 5 rfl rfl (by omega)

/-! Slice computation helpers. -/

lemma take_append_le {α : Type} (k : Nat) (xs ys : List α) (h : k ≤ xs.length) :
    (xs ++ ys).take k = xs.take k := by
  rw [List.take_append_eq_append_take, Nat.sub_eq_zero_of_le h]
  simp

lemma jsSlice_nat (s : String) (a b : Nat) :
    jsSlice s a b = String.mk ((s.data.take (min b s.data.length)).drop (min a s.data.length)) := by
  unfold jsSlice
  have ha : ¬ ((a : Int) < 0) := by omega
  have hb : ¬ ((b : Int) < 0) := by omega
  simp only [if_neg ha, if_neg hb, Int.toNat_ofNat]

lemma jsSlice_middle {s : String} {xs ys zs : List Char} (h : s.data = xs ++ (ys ++ zs)) :
    jsSlice s (xs.length : Int) ((xs.length : Int) + (ys.length : Int)) = String.mk ys := by
  have hcast : ((xs.length : Int) + (ys.length : Int)) = ((xs.length + ys.length : Nat) : Int) := by
    omega
  rw [hcast, jsSlice_nat]
  have hlen : s.data.length = xs.length + (ys.length + zs.length) := by
    rw [h]; simp
  have hmb : min (xs.length + ys.length) s.data.length = xs.length + ys.length := by
    omega
  have hma : min xs.length s.data.length = xs.length := by omega
  rw [hmb, hma, h, ← List.append_assoc]
  rw [List.take_left' (by simp), List.drop_left]

lemma extractTitleO_of_decomp {s : String} {pre post : List Char}
    (heq : s.data = pre ++ '(' :: post) (hnm : '(' ∉ pre) (hne : pre ≠ []) :
    extractTitleO s = some (String.mk (jsTrimList pre.dropLast)) := by
  have hfi : firstIdx '(' s.data = some pre.length :=
    firstIdx_eq_some_iff.mpr ⟨pre, post, heq, rfl, hnm⟩
  have hio : jsIndexOf s '(' = (pre.length : Int) := jsIndexOf_eq_of_firstIdx hfi
  have hpre : 0 < pre.length := List.length_pos.mpr hne
  have hpos : (0 : Int) < (pre.length : Int) := by omega
  have hslice : jsSlice s 0 ((pre.length : Int) - 1) = String.mk pre.dropLast := by
    have h2 : ((pre.length : Int) - 1) = ((pre.length - 1 : Nat) : Int) := by omega
    rw [h2, show ((0 : Int)) = ((0 : Nat) : Int) from rfl, jsSlice_nat]
    have hlen : s.data.length = pre.length + (post.length + 1) := by
      rw [heq]; simp
    have hmb : min (pre.length - 1) s.data.length = pre.length - 1 := by omega
    have hma : min 0 s.data.length = 0 := by omega
    rw [hmb, hma, List.drop_zero, heq, take_append_le _ pre ('(' :: post) (by omega),
      ← List.dropLast_eq_take]
  unfold extractTitleO
  rw [hio, if_pos hpos, hslice]
  rfl

/-- C6 counterexample: for `"AB(1)"` (where `(` is at index 2) the claim
demands the characters before the `(`, i.e. `"AB"`, but the code slices to
`bracketOpen - 1` and returns `"A"`: the character immediately before the
`(` is dropped even though it is neither whitespace nor punctuation. -/
theorem extractTitle_dropChar_counterexample :
    extractTitleO "AB(1)" = some "A" ∧ extractTitleE "AB(1)" = .ok "A" ∧
      extractTitleO "AB(1)" ≠ some "AB" :=
  ⟨rfl, rfl, by decide⟩

/-- C6 amended: both variants agree; the title extractor succeeds exactly
when the first `(` sits at a positive index (equivalently, the string
splits as `pre ++ '(' :: post` with `pre` non-empty and `(`-free), and on
success it returns `pre` with its LAST character unconditionally dropped
(`slice(0, bracketOpen - 1)`), then trimmed of leading and trailing
whitespace — not "the characters before the `(` trimmed of trailing
whitespace/punctuation". -/
theorem extractTitle_characterization :
    (∀ (s t : String), extractTitleO s = some t ↔ extractTitleE s = .ok t) ∧
    (∀ s : String, (∃ t, extractTitleO s = some t) ↔
      ∃ pre post, s.data = pre ++ '(' :: post ∧ pre ≠ [] ∧ '(' ∉ pre) ∧
    (∀ (s : String) (pre post : List Char), s.data = pre ++ '(' :: post → '(' ∉ pre →
      pre ≠ [] → extractTitleO s = some (String.mk (jsTrimList pre.dropLast))) := by
  refine ⟨?_, ?_, fun s pre post heq hnm hne => extractTitleO_of_decomp heq hnm hne⟩
  · intro s t
    by_cases hcond : jsIndexOf s '(' > 0
    · simp [extractTitleO, extractTitleE, if_pos hcond]
    · simp [extractTitleO, extractTitleE, if_neg hcond]
  · intro s
    constructor
    · rintro ⟨t, ht⟩
      by_cases hcond : jsIndexOf s '(' > 0
      · cases hfi : firstIdx '(' s.data with
        | none =>
            have : jsIndexOf s '(' = -1 := by unfold jsIndexOf; rw [hfi]
            omega
        | some n =>
            have hio : jsIndexOf s '(' = n := jsIndexOf_eq_of_firstIdx hfi
            obtain ⟨pre, post, heq, hlen, hnm⟩ := firstIdx_eq_some_iff.mp hfi
            have hne : pre ≠ [] := by
              rw [← List.length_pos, hlen]
              omega
            exact ⟨pre, post, heq, hne, hnm⟩
      · simp only [extractTitleO, if_neg hcond] at ht
        cases ht
    · rintro ⟨pre, post, heq, hne, hnm⟩
      exact ⟨_, extractTitleO_of_decomp heq hnm hne⟩

/-- Witness for C6 at a concrete string: on `"No (x)"` the code keeps
`"No "` minus its last character, trimmed, i.e. `"No"`. -/
theorem extractTitle_characterization_witness :
    extractTitleO "No (x)" = some (String.mk (jsTrimList (['N', 'o', ' '].dropLast))) :=
  extractTitle_characterization.2.2 "No (x)" ['N', 'o', ' '] ['x', ')'] rfl (by decide)
    (by decide)

/-! All-or-nothing aggregation machinery. -/

/-- Structural all-or-nothing sequencing of Either outcomes: the first
error in list order wins. -/
def seqShowsE : List (Except String TvShow) → Except String (List TvShow)
  | [] => .ok []
  | .error d :: _ => .error d
  | .ok s :: xs =>
      match seqShowsE xs with
      | .error d => .error d
      | .ok ss => .ok (s :: ss)

/-- Structural all-or-nothing sequencing of Option outcomes. -/
def seqShowsO : List (Option TvShow) → Option (List TvShow)
  | [] => some []
  | none :: _ => none
  | some s :: xs =>
      match seqShowsO xs with
      | none => none
      | some ss => some (s :: ss)

lemma foldlE_error (d : String) :
    ∀ xs : List (Except String TvShow), xs.foldl addOrResignE (.error d) = .error d := by
  intro xs
  induction xs with
  | nil => rfl
  | cons x xs ih => simpa [addOrResignE_error] using ih

lemma foldlO_none :
    ∀ xs : List (Option TvShow), xs.foldl addOrResignO none = none := by
  intro xs
  induction xs with
  | nil => rfl
  | cons x xs ih => simpa [addOrResignO_none] using ih

lemma foldlE_ok :
    ∀ (xs : List (Except String TvShow)) (acc : List TvShow),
      xs.foldl addOrResignE (.ok acc) = (seqShowsE xs).map (acc ++ ·) := by
  intro xs
  induction xs with
  | nil => intro acc; simp [seqShowsE, Except.map]
  | cons x xs ih =>
      intro acc
      cases x with
      | error d =>
          simp only [List.foldl_cons]
          have h1 : addOrResignE (.ok acc) (.error d) = .error d := rfl
          rw [h1, foldlE_error]
          simp [seqShowsE, Except.map]
      | ok s =>
          simp only [List.foldl_cons]
          have h1 : addOrResignE (.ok acc) (.ok s) = .ok (acc.concat s) := rfl
          rw [h1, ih (acc.concat s)]
          cases hseq : seqShowsE xs with
          | error d => simp [seqShowsE, hseq, Except.map]
          | ok ss => simp [seqShowsE, hseq, Except.map]

lemma foldlO_some :
    ∀ (xs : List (Option TvShow)) (acc : List TvShow),
      xs.foldl addOrResignO (some acc) = (seqShowsO xs).map (acc ++ ·) := by
  intro xs
  induction xs with
  | nil => intro acc; simp [seqShowsO]
  | cons x xs ih =>
      intro acc
      cases x with
      | none =>
          simp only [List.foldl_cons]
          have h1 : addOrResignO (some acc) none = none := rfl
          rw [h1, foldlO_none]
          simp [seqShowsO]
      | some s =>
          simp only [List.foldl_cons]
          have h1 : addOrResignO (some acc) (some s) = some (acc.concat s) := rfl
          rw [h1, ih (acc.concat s)]
          cases hseq : seqShowsO xs with
          | none => simp [seqShowsO, hseq]
          | some ss => simp [seqShowsO, hseq]

lemma parseShowsE_eq_seq (raws : List String) :
    parseShowsE raws = seqShowsE (raws.map parseShowE) := by
  unfold parseShowsE
  rw [foldlE_ok]
  cases h : seqShowsE (raws.map parseShowE) <;> simp [Except.map]

lemma parseShowsO_eq_seq (raws : List String) :
    parseShowsO raws = seqShowsO (raws.map parseShowO) := by
  unfold parseShowsO
  rw [foldlO_some]
  cases h : seqShowsO (raws.map parseShowO) <;> simp

lemma seqShowsE_ok_iff :
    ∀ {xs : List (Except String TvShow)} {l : List TvShow},
      seqShowsE xs = .ok l ↔ List.Forall₂ (fun x s => x = .ok s) xs l := by
  intro xs
  induction xs with
  | nil =>
      intro l
      simp [seqShowsE, List.forall₂_nil_left_iff, eq_comm]
  | cons x xs ih =>
      intro l
      cases x with
      | error d =>
          simp [seqShowsE, List.forall₂_cons_left_iff]
      | ok s =>
          cases hseq : seqShowsE xs with
          | error d =>
              simp only [seqShowsE, hseq]
              constructor
              · intro h; cases h
              · rw [List.forall₂_cons_left_iff]
                rintro ⟨b, l', hb, hf, rfl⟩
                have := ih.mpr hf
                rw [hseq] at this
                cases this
          | ok ss =>
              simp only [seqShowsE, hseq]
              constructor
              · intro h
                obtain rfl : l = s :: ss := by cases h; rfl
                exact List.Forall₂.cons rfl (ih.mp hseq)
              · rw [List.forall₂_cons_left_iff]
                rintro ⟨b, l', hb, hf, rfl⟩
                obtain rfl : s = b := by cases hb; rfl
                have := ih.mpr hf
                rw [hseq] at this
                obtain rfl : ss = l' := by cases this; rfl
                rfl

lemma seqShowsO_some_iff :
    ∀ {xs : List (Option TvShow)} {l : List TvShow},
      seqShowsO xs = some l ↔ List.Forall₂ (fun x s => x = some s) xs l := by
  intro xs
  induction xs with
  | nil =>
      intro l
      simp [seqShowsO, List.forall₂_nil_left_iff, eq_comm]
  | cons x xs ih =>
      intro l
      cases x with
      | none =>
          simp [seqShowsO, List.forall₂_cons_left_iff]
      | some s =>
          cases hseq : seqShowsO xs with
          | none =>
              simp only [seqShowsO, hseq]
              constructor
              · intro h; cases h
              · rw [List.forall₂_cons_left_iff]
                rintro ⟨b, l', hb, hf, rfl⟩
                have := ih.mpr hf
                rw [hseq] at this
                cases this
          | some ss =>
              simp only [seqShowsO, hseq]
              constructor
              · intro h
                obtain rfl : l = s :: ss := by cases h; rfl
                exact List.Forall₂.cons rfl (ih.mp hseq)
              · rw [List.forall₂_cons_left_iff]
                rintro ⟨b, l', hb, hf, rfl⟩
                obtain rfl : s = b := by cases hb; rfl
                have := ih.mpr hf
                rw [hseq] at this
                obtain rfl : ss = l' := by cases this; rfl
                rfl

lemma seqShowsE_append_error (d : String) :
    ∀ (xs ys : List (Except String TvShow)), (∀ x ∈ xs, ∃ s, x = .ok s) →
      seqShowsE (xs ++ .error d :: ys) = .error d := by
  intro xs ys h
  induction xs with
  | nil => rfl
  | cons x xs ih =>
      obtain ⟨s, rfl⟩ := h x (by simp)
      have hrest := ih (fun x hx => h x (by simp [hx]))
      simp [seqShowsE, hrest]

lemma seqShowsO_append_none :
    ∀ (xs ys : List (Option TvShow)), (∀ x ∈ xs, ∃ s, x = some s) →
      seqShowsO (xs ++ none :: ys) = none := by
  intro xs ys h
  induction xs with
  | nil => rfl
  | cons x xs ih =>
      obtain ⟨s, rfl⟩ := h x (by simp)
      have hrest := ih (fun x hx => h x (by simp [hx]))
      simp [seqShowsO, hrest]

/-- C1: `parseShows` is all-or-nothing in both variants.  It returns a
success exactly when every element's `parseShow` succeeds, and then the
structured records are exactly the per-element results in input order
(`Forall₂`); when the items before `r` all succeed and `r` fails with
diagnostic `d`, the whole result is `Failure d` (earliest failure in scan
order wins, and a failed accumulator never recovers); in particular on the
five dummy strings, whose fourth item is `"The Simpsons, 1989-2021"`, the
result is a failure carrying that item's title diagnostic even though the
other four items succeed. -/
theorem parseShows_allOrNothing :
    (∀ (raws : List String) (l : List TvShow),
      parseShowsE raws = .ok l ↔ List.Forall₂ (fun r s => parseShowE r = .ok s) raws l) ∧
    (∀ (raws1 : List String) (r : String) (raws2 : List String) (d : String),
      (∀ r' ∈ raws1, ∃ s, parseShowE r' = .ok s) → parseShowE r = .error d →
      parseShowsE (raws1 ++ r :: raws2) = .error d) ∧
    (∀ (raws : List String) (l : List TvShow),
      parseShowsO raws = some l ↔ List.Forall₂ (fun r s => parseShowO r = some s) raws l) ∧
    (∀ (raws1 : List String) (r : String) (raws2 : List String),
      (∀ r' ∈ raws1, ∃ s, parseShowO r' = some s) → parseShowO r = none →
      parseShowsO (raws1 ++ r :: raws2) = none) ∧
    parseShowsE rawShows = .error "Cannot extract title from: The Simpsons, 1989-2021" ∧
    parseShowsO rawShows = none ∧
    (∀ r ∈ ["The Office (2005-2013)", "Breaking Bad (2008-2013)", "Friends (1994-2004)",
      "Game of Thrones (2011)"], ∃ s, parseShowE r = .ok s) := by
  refine ⟨?_, ?_, ?_, ?_, rfl, rfl, ?_⟩
  · intro raws l
    rw [parseShowsE_eq_seq, seqShowsE_ok_iff, List.forall₂_map_left_iff]
  · intro raws1 r raws2 d h hr
    rw [parseShowsE_eq_seq, List.map_append, List.map_cons, hr]
    exact seqShowsE_append_error d _ _ (by
      intro x hx
      obtain ⟨r', hr', rfl⟩ := List.mem_map.mp hx
      exact h r' hr')
  · intro raws l
    rw [parseShowsO_eq_seq, seqShowsO_some_iff, List.forall₂_map_left_iff]
  · intro raws1 r raws2 h hr
    rw [parseShowsO_eq_seq, List.map_append, List.map_cons, hr]
    exact seqShowsO_append_none _ _ (by
      intro x hx
      obtain ⟨r', hr', rfl⟩ := List.mem_map.mp hx
      exact h r' hr')
  · intro r hr
    simp only [List.mem_cons, List.not_mem_nil, or_false] at hr
    rcases hr with rfl | rfl | rfl | rfl
    · exact ⟨_, rfl⟩
    · exact ⟨_, rfl⟩
    · exact ⟨_, rfl⟩
    · exact ⟨_, rfl⟩

/-- Witness for C1: one succeeding item before a failing item makes the
whole aggregate fail with the failing item's diagnostic. -/
theorem parseShows_allOrNothing_witness :
    parseShowsE
        ["The Office (2005-2013)", "The Simpsons, 1989-2021", "Game of Thrones (2011)"] =
      .error "Cannot extract title from: The Simpsons, 1989-2021" :=
  parseShows_allOrNothing.2.1 ["The Office (2005-2013)"] "The Simpsons, 1989-2021"
    ["Game of Thrones (2011)"] "Cannot extract title from: The Simpsons, 1989-2021"
    (by
      intro r hr
      simp only [List.mem_cons, List.not_mem_nil, or_false] at hr
      subst hr
      exact ⟨_, rfl⟩)
    rfl

/-! Digit and trim lemmas for the well-formed-shape claims. -/

lemma firstIdx_cons_ne {x c : Char} (h : x ≠ c) (xs : List Char) :
    firstIdx c (x :: xs) = (firstIdx c xs).map (· + 1) := by
  simp [firstIdx, h]

lemma firstIdx_cons_self (c : Char) (xs : List Char) : firstIdx c (c :: xs) = some 0 := by
  simp [firstIdx]

lemma firstIdx_append_of_not_mem {c : Char} {xs : List Char} (h : c ∉ xs) (ys : List Char) :
    firstIdx c (xs ++ ys) = (firstIdx c ys).map (· + xs.length) := by
  induction xs with
  | nil => cases h2 : firstIdx c ys <;> simp [h2]
  | cons x xs ih =>
      have hx : x ≠ c := fun he => h (by simp [he])
      have hxs : c ∉ xs := fun hm => h (by simp [hm])
      rw [List.cons_append, firstIdx_cons_ne hx, ih hxs]
      cases firstIdx c ys with
      | none => rfl
      | some a => simp; omega

lemma not_mem_of_all_digit {cs : List Char} (h : ∀ c ∈ cs, c.isDigit = true) {x : Char}
    (hx : x.isDigit = false) : x ∉ cs := by
  intro hm
  rw [h x hm] at hx
  cases hx

lemma not_ws_of_digit {c : Char} (h : c.isDigit = true) : jsWs c = false := by
  simp only [jsWs, Char.isWhitespace, Bool.or_eq_false_iff, decide_eq_false_iff_not]
  refine ⟨⟨⟨?_, ?_⟩, ?_⟩, ?_⟩ <;> rintro rfl <;> exact absurd h (by decide)

lemma dropWhile_ws_eq_self {cs : List Char} (h : ∀ c ∈ cs, jsWs c = false) :
    cs.dropWhile jsWs = cs := by
  cases cs with
  | nil => rfl
  | cons x xs => simp [List.dropWhile_cons, h x (by simp)]

lemma jsTrimList_eq_self {cs : List Char} (h : ∀ c ∈ cs, jsWs c = false) :
    jsTrimList cs = cs := by
  unfold jsTrimList
  rw [dropWhile_ws_eq_self h,
    dropWhile_ws_eq_self (fun c hc => h c (List.mem_reverse.mp hc)), List.reverse_reverse]

lemma digitsToNat_eq {cs : List Char} (h0 : cs ≠ []) (hd : ∀ c ∈ cs, c.isDigit = true) :
    digitsToNat cs = some (natOfDigits cs) := by
  unfold digitsToNat
  rw [if_neg (by simp [h0]), if_pos (by rw [List.all_eq_true]; exact hd)]

lemma ne_of_digit_of_not {c x : Char} (h : c.isDigit = true) (hx : x.isDigit = false) :
    c ≠ x := by
  intro he
  rw [he] at h
  rw [h] at hx
  cases hx

lemma jsNumber_digits {S : String} (h0 : S.data ≠ []) (hd : ∀ c ∈ S.data, c.isDigit = true) :
    jsNumber S = .int (natOfDigits S.data) := by
  unfold jsNumber
  rw [jsTrimList_eq_self (fun c hc => not_ws_of_digit (hd c hc))]
  cases hS : S.data with
  | nil => exact absurd hS h0
  | cons c cs =>
      have hc : c.isDigit = true := by
        apply hd
        rw [hS]
        simp
      split
      · rename_i heq
        cases heq
      · rename_i rest heq
        obtain ⟨h1, -⟩ := List.cons_eq_cons.mp heq
        rw [h1] at hc
        exact absurd hc (by decide)
      · rename_i rest heq
        obtain ⟨h1, -⟩ := List.cons_eq_cons.mp heq
        rw [h1] at hc
        exact absurd hc (by decide)
      · rename_i cs' hne1 hne2 hne3
        rw [digitsToNat_eq (by simp) (by rw [← hS]; exact hd)]

lemma extractTitle_agree (s t : String) :
    extractTitleO s = some t ↔ extractTitleE s = .ok t := by
  by_cases hcond : jsIndexOf s '(' > 0
  · simp [extractTitleO, extractTitleE, if_pos hcond]
  · simp [extractTitleO, extractTitleE, if_neg hcond]

/-- C2 counterexample: `"Spider-Man (2002-2004)"` has the shape
`"<T> (<S>-<E>)"` with non-empty trimmed title and numeric years, yet the
silent variant returns start `0` and end `NaN` (the title's hyphen is the
first `-` of the string), and the diagnostic variant fails outright — not
the claimed `{title, 2002, 2004}` success. -/
theorem parseShow_rangeShape_counterexample :
    parseShowO "Spider-Man (2002-2004)" =
      some { title := "Spider-Man", start := .int 0, «end» := JsNum.nan } ∧
    parseShowE "Spider-Man (2002-2004)" =
      .error "Cannot extract single year from: Spider-Man (2002-2004)" :=
  ⟨rfl, rfl⟩

/-- C2 amended: for titles containing none of the three delimiter
characters, the claim holds in both variants: parsing
`"<T> (<S>-<E>)"` with non-empty trimmed `T` and non-empty digit strings
`S`, `E` succeeds with `{title := T, start := S, end := E}`. -/
theorem parseShow_rangeShape (T S E : String)
    (hT0 : T.data ≠ []) (hTtrim : jsTrimList T.data = T.data)
    (hTp : '(' ∉ T.data) (hTd : '-' ∉ T.data) (hTc : ')' ∉ T.data)
    (hS0 : S.data ≠ []) (hSd : ∀ c ∈ S.data, c.isDigit = true)
    (hE0 : E.data ≠ []) (hEd : ∀ c ∈ E.data, c.isDigit = true) :
    parseShowO (T ++ " (" ++ S ++ "-" ++ E ++ ")") =
      some { title := T, start := .int (natOfDigits S.data),
             «end» := .int (natOfDigits E.data) } ∧
    parseShowE (T ++ " (" ++ S ++ "-" ++ E ++ ")") =
      .ok { title := T, start := .int (natOfDigits S.data),
            «end» := .int (natOfDigits E.data) } := by
  set raw : String := T ++ " (" ++ S ++ "-" ++ E ++ ")" with hraw
  have hSnd : '-' ∉ S.data := not_mem_of_all_digit hSd (by decide)
  have hSnc : ')' ∉ S.data := not_mem_of_all_digit hSd (by decide)
  have hEnc : ')' ∉ E.data := not_mem_of_all_digit hEd (by decide)
  have hslen : 0 < S.data.length := List.length_pos.mpr hS0
  have helen : 0 < E.data.length := List.length_pos.mpr hE0
  have d1 : (" (" : String).data = [' ', '('] := rfl
  have d2 : ("-" : String).data = ['-'] := rfl
  have d3 : (")" : String).data = [')'] := rfl
  have hdata : raw.data = T.data ++ (' ' :: '(' :: (S.data ++ ('-' :: (E.data ++ [')'])))) := by
    rw [hraw]
    simp [String.data_append, d1, d2, d3]
  have hpo : firstIdx '(' raw.data = some (T.data.length + 1) := by
    rw [hdata, firstIdx_append_of_not_mem hTp,
      firstIdx_cons_ne (show ' ' ≠ '(' by decide), firstIdx_cons_self]
    simp only [Option.map_some', Option.some.injEq]
    omega
  have hpd : firstIdx '-' raw.data = some (T.data.length + 2 + S.data.length) := by
    rw [hdata, firstIdx_append_of_not_mem hTd,
      firstIdx_cons_ne (show ' ' ≠ '-' by decide),
      firstIdx_cons_ne (show '(' ≠ '-' by decide),
      firstIdx_append_of_not_mem hSnd, firstIdx_cons_self]
    simp only [Option.map_some', Option.some.injEq]
    omega
  have hpc : firstIdx ')' raw.data =
      some (T.data.length + 3 + S.data.length + E.data.length) := by
    rw [hdata, firstIdx_append_of_not_mem hTc,
      firstIdx_cons_ne (show ' ' ≠ ')' by decide),
      firstIdx_cons_ne (show '(' ≠ ')' by decide),
      firstIdx_append_of_not_mem hSnc,
      firstIdx_cons_ne (show '-' ≠ ')' by decide),
      firstIdx_append_of_not_mem hEnc, firstIdx_cons_self]
    simp only [Option.map_some', Option.some.injEq]
    omega
  have hre1 : raw.data = (T.data ++ [' ', '(']) ++ (S.data ++ ('-' :: (E.data ++ [')']))) := by
    rw [hdata]
    simp
  have hre2 : raw.data = (T.data ++ [' ', '('] ++ S.data ++ ['-']) ++ (E.data ++ [')']) := by
    rw [hdata]
    simp
  have hs1 : jsSlice raw (((T.data.length + 1 : Nat) : Int) + 1)
      ((T.data.length + 2 + S.data.length : Nat) : Int) = String.mk S.data := by
    have hm := jsSlice_middle hre1
    have harg1 : (((T.data ++ [' ', '(']).length : Nat) : Int) =
        ((T.data.length + 1 : Nat) : Int) + 1 := by
      simp only [List.length_append, List.length_cons, List.length_nil]
      omega
    have harg2 : (((T.data ++ [' ', '(']).length : Nat) : Int) + ((S.data.length : Nat) : Int) =
        ((T.data.length + 2 + S.data.length : Nat) : Int) := by
      simp only [List.length_append, List.length_cons, List.length_nil]
      omega
    rw [harg2, harg1] at hm
    exact hm
  have hs2 : jsSlice raw (((T.data.length + 2 + S.data.length : Nat) : Int) + 1)
      ((T.data.length + 3 + S.data.length + E.data.length : Nat) : Int) = String.mk E.data := by
    have hm := jsSlice_middle hre2
    have harg1 : (((T.data ++ [' ', '('] ++ S.data ++ ['-']).length : Nat) : Int) =
        ((T.data.length + 2 + S.data.length : Nat) : Int) + 1 := by
      simp only [List.length_append, List.length_cons, List.length_nil]
      omega
    have harg2 : (((T.data ++ [' ', '('] ++ S.data ++ ['-']).length : Nat) : Int) +
        ((E.data.length : Nat) : Int) =
        ((T.data.length + 3 + S.data.length + E.data.length : Nat) : Int) := by
      simp only [List.length_append, List.length_cons, List.length_nil]
      omega
    rw [harg2, harg1] at hm
    exact hm
  have hnumS : jsNumber (String.mk S.data) = .int (natOfDigits S.data) :=
    jsNumber_digits (by simpa using hS0) (by simpa using hSd)
  have hnumE : jsNumber (String.mk E.data) = .int (natOfDigits E.data) :=
    jsNumber_digits (by simpa using hE0) (by simpa using hEd)
  have hpre : raw.data = (T.data ++ [' ']) ++ '(' :: (S.data ++ ('-' :: (E.data ++ [')']))) := by
    rw [hdata]
    simp
  have hTitleO : extractTitleO raw = some T := by
    rw [extractTitleO_of_decomp hpre
      (by
        intro hm
        rcases List.mem_append.mp hm with h | h
        · exact hTp h
        · simp at h)
      (by simp)]
    rw [List.dropLast_concat, hTtrim]
  have hTitleE : extractTitleE raw = .ok T := (extractTitle_agree raw T).mp hTitleO
  have hStartO : extractYearStartO raw = some (.int (natOfDigits S.data)) := by
    unfold extractYearStartO
    rw [jsIndexOf_eq_of_firstIdx hpo, jsIndexOf_eq_of_firstIdx hpd,
      if_pos ⟨by omega, by omega⟩, hs1, hnumS]
  have hStartE : extractYearStartE raw = .ok (.int (natOfDigits S.data)) := by
    unfold extractYearStartE
    rw [jsIndexOf_eq_of_firstIdx hpo, jsIndexOf_eq_of_firstIdx hpd,
      if_pos ⟨by omega, by omega⟩, hs1, hnumS]
  have hEndO : extractYearEndO raw = some (.int (natOfDigits E.data)) := by
    unfold extractYearEndO
    rw [jsIndexOf_eq_of_firstIdx hpc, jsIndexOf_eq_of_firstIdx hpd,
      if_pos ⟨by omega, by omega⟩, hs2, hnumE]
  have hEndE : extractYearEndE raw = .ok (.int (natOfDigits E.data)) := by
    unfold extractYearEndE
    rw [jsIndexOf_eq_of_firstIdx hpd, jsIndexOf_eq_of_firstIdx hpc,
      if_pos ⟨by omega, by omega⟩, hs2, hnumE]
  constructor
  · unfold parseShowO
    rw [hTitleO, hStartO, hEndO]
    rfl
  · unfold parseShowE
    rw [hTitleE, hStartE, hEndE]
    rfl

/-- Witness for C2 at the first dummy string. -/
theorem parseShow_rangeShape_witness :
    parseShowO ("The Office" ++ " (" ++ "2005" ++ "-" ++ "2013" ++ ")") =
      some { title := "The Office", start := .int (natOfDigits ("2005" : String).data),
             «end» := .int (natOfDigits ("2013" : String).data) } ∧
    parseShowE ("The Office" ++ " (" ++ "2005" ++ "-" ++ "2013" ++ ")") =
      .ok { title := "The Office", start := .int (natOfDigits ("2005" : String).data),
            «end» := .int (natOfDigits ("2013" : String).data) } :=
  parseShow_rangeShape "The Office" "2005" "2013" (by decide) (by decide) (by decide)
    (by decide) (by decide) (by decide) (by decide) (by decide) (by decide)

/-- C3 counterexample: `")a (2011)"` has the shape `"<T> (<Y>)"` with
`T = ")a"` and no hyphen, yet parsing fails in both variants: the first
`)` of the string sits inside the title, so the single-year extractor's
bracket-ordering check fails. -/
theorem parseShow_singleYear_counterexample :
    parseShowO ")a (2011)" = none ∧
    parseShowE ")a (2011)" = .error "Cannot extract single year from: )a (2011)" :=
  ⟨rfl, rfl⟩

/-- C3 amended: for titles containing none of the three delimiter
characters, a hyphen-free `"<T> (<Y>)"` with non-empty digit string `Y`
parses in both variants with `start = end = Y` (the single-year extractor
supplies both fields through the fallback); in particular
`"Game of Thrones (2011)"` gives `{title := "Game of Thrones",
start := 2011, end := 2011}`. -/
theorem parseShow_singleYearShape (T Y : String)
    (hT0 : T.data ≠ []) (hTtrim : jsTrimList T.data = T.data)
    (hTp : '(' ∉ T.data) (hTd : '-' ∉ T.data) (hTc : ')' ∉ T.data)
    (hY0 : Y.data ≠ []) (hYd : ∀ c ∈ Y.data, c.isDigit = true) :
    (parseShowO (T ++ " (" ++ Y ++ ")") =
      some { title := T, start := .int (natOfDigits Y.data),
             «end» := .int (natOfDigits Y.data) } ∧
    parseShowE (T ++ " (" ++ Y ++ ")") =
      .ok { title := T, start := .int (natOfDigits Y.data),
            «end» := .int (natOfDigits Y.data) }) ∧
    parseShowO "Game of Thrones (2011)" =
      some { title := "Game of Thrones", start := .int 2011, «end» := .int 2011 } ∧
    parseShowE "Game of Thrones (2011)" =
      .ok { title := "Game of Thrones", start := .int 2011, «end» := .int 2011 } := by
  refine ⟨?_, rfl, rfl⟩
  set raw : String := T ++ " (" ++ Y ++ ")" with hraw
  have hYnd : '-' ∉ Y.data := not_mem_of_all_digit hYd (by decide)
  have hYnc : ')' ∉ Y.data := not_mem_of_all_digit hYd (by decide)
  have hylen : 0 < Y.data.length := List.length_pos.mpr hY0
  have d1 : (" (" : String).data = [' ', '('] := rfl
  have d3 : (")" : String).data = [')'] := rfl
  have hdata : raw.data = T.data ++ (' ' :: '(' :: (Y.data ++ [')'])) := by
    rw [hraw]
    simp [String.data_append, d1, d3]
  have hpo : firstIdx '(' raw.data = some (T.data.length + 1) := by
    rw [hdata, firstIdx_append_of_not_mem hTp,
      firstIdx_cons_ne (show ' ' ≠ '(' by decide), firstIdx_cons_self]
    simp only [Option.map_some', Option.some.injEq]
    omega
  have hpdash : firstIdx '-' raw.data = none := by
    rw [firstIdx_eq_none_iff, hdata]
    intro hm
    rcases List.mem_append.mp hm with h | h
    · exact hTd h
    · rcases List.mem_cons.mp h with h' | h'
      · cases h'
      · rcases List.mem_cons.mp h' with h'' | h''
        · cases h''
        · rcases List.mem_append.mp h'' with h3 | h3
          · exact hYnd h3
          · simp at h3
  have hpc : firstIdx ')' raw.data = some (T.data.length + 2 + Y.data.length) := by
    rw [hdata, firstIdx_append_of_not_mem hTc,
      firstIdx_cons_ne (show ' ' ≠ ')' by decide),
      firstIdx_cons_ne (show '(' ≠ ')' by decide),
      firstIdx_append_of_not_mem hYnc, firstIdx_cons_self]
    simp only [Option.map_some', Option.some.injEq]
    omega
  have hid : jsIndexOf raw '-' = -1 := by unfold jsIndexOf; rw [hpdash]
  have hre1 : raw.data = (T.data ++ [' ', '(']) ++ (Y.data ++ [')']) := by
    rw [hdata]
    simp
  have hs1 : jsSlice raw (((T.data.length + 1 : Nat) : Int) + 1)
      ((T.data.length + 2 + Y.data.length : Nat) : Int) = String.mk Y.data := by
    have hm := jsSlice_middle hre1
    have harg1 : (((T.data ++ [' ', '(']).length : Nat) : Int) =
        ((T.data.length + 1 : Nat) : Int) + 1 := by
      simp only [List.length_append, List.length_cons, List.length_nil]
      omega
    have harg2 : (((T.data ++ [' ', '(']).length : Nat) : Int) + ((Y.data.length : Nat) : Int) =
        ((T.data.length + 2 + Y.data.length : Nat) : Int) := by
      simp only [List.length_append, List.length_cons, List.length_nil]
      omega
    rw [harg2, harg1] at hm
    exact hm
  have hnumY : jsNumber (String.mk Y.data) = .int (natOfDigits Y.data) :=
    jsNumber_digits (by simpa using hY0) (by simpa using hYd)
  have hpre : raw.data = (T.data ++ [' ']) ++ '(' :: (Y.data ++ [')']) := by
    rw [hdata]
    simp
  have hTitleO : extractTitleO raw = some T := by
    rw [extractTitleO_of_decomp hpre
      (by
        intro hm
        rcases List.mem_append.mp hm with h | h
        · exact hTp h
        · simp at h)
      (by simp)]
    rw [List.dropLast_concat, hTtrim]
  have hTitleE : extractTitleE raw = .ok T := (extractTitle_agree raw T).mp hTitleO
  have hSingleO : extractSingleYearO raw = some (.int (natOfDigits Y.data)) := by
    unfold extractSingleYearO
    rw [hid, jsIndexOf_eq_of_firstIdx hpo, jsIndexOf_eq_of_firstIdx hpc,
      if_pos ⟨rfl, by omega, by omega⟩, hs1, hnumY]
  have hSingleE : extractSingleYearE raw = .ok (.int (natOfDigits Y.data)) := by
    unfold extractSingleYearE
    rw [hid, jsIndexOf_eq_of_firstIdx hpo, jsIndexOf_eq_of_firstIdx hpc,
      if_pos ⟨rfl, by omega, by omega⟩, hs1, hnumY]
  have hStartO : extractYearStartO raw = none := by
    unfold extractYearStartO
    rw [hid, if_neg (by rintro ⟨-, hc⟩; exact hc rfl)]
  have hStartE : ∀ d, jsOrElseE (extractYearStartE raw) d = d
      ("Cannot extract year start from: " ++ raw) := by
    intro d
    unfold extractYearStartE
    rw [hid, jsIndexOf_eq_of_firstIdx hpo, if_neg (by rintro ⟨-, hc⟩; omega)]
    rfl
  have hEndO : extractYearEndO raw = none := by
    unfold extractYearEndO
    rw [hid, if_neg (by rintro ⟨hc, -⟩; exact hc rfl)]
  have hEndE : ∀ d, jsOrElseE (extractYearEndE raw) d = d
      ("Cannot extract year end from: " ++ raw) := by
    intro d
    unfold extractYearEndE
    rw [hid, if_neg (by rintro ⟨hc, -⟩; exact hc rfl)]
    rfl
  constructor
  · unfold parseShowO
    rw [hTitleO, hStartO, hEndO]
    simp only [show (jsOrElseO none fun _ => extractSingleYearO raw) = extractSingleYearO raw
      from rfl, hSingleO]
    rfl
  · unfold parseShowE
    rw [hTitleE, hStartE, hEndE, hSingleE]
    rfl

/-- Witness for C3 at the Game of Thrones sample. -/
theorem parseShow_singleYearShape_witness :
    parseShowO ("Game of Thrones" ++ " (" ++ "2011" ++ ")") =
      some { title := "Game of Thrones", start := .int (natOfDigits ("2011" : String).data),
             «end» := .int (natOfDigits ("2011" : String).data) } :=
  (parseShow_singleYearShape "Game of Thrones" "2011" (by decide) (by decide) (by decide)
    (by decide) (by decide) (by decide) (by decide)).1.1
